import Mathlib

/-!
# Verification of the ScalpSense analysis core (`backend/model_load.py`)

Shallow embedding of the two core functions of the repository:

* `predict_stage(image_url, gender)` — stage classification with the
  non-scalp (index 0) validity gate;
* `analyze_hair_density(image_urls, timestamps)` — the four-sample
  density-trend computation.

External collaborators (the TensorFlow models, `urlopen`, the OpenCV
decode/threshold pipeline) are parameters of the embedding: `predict_stage`
takes an image loader and a per-category inference function, and
`analyze_hair_density` takes a `process` function mapping an image URL to
its density score (the whole `urlopen`/`imdecode`/`threshold` block of the
source), each returning `Except String _` to model the `try/except` blocks.

Python floats are modelled as rationals; `round(x, 1)` is modelled as
round-half-to-even at one decimal place.  Timestamps are strings in the
caller (`app.py` passes ISO strings); `np.argsort` compares them as opaque
ordered values, so the embedding is generic over a `LinearOrder`.
`np.argsort` with its default kind runs an insertion sort for arrays of
fewer than 17 elements (always the case here: exactly 4), which is a
stable sort; the embedding uses a stable insertion sort on
(original index, timestamp) pairs.
-/

/-- Class labels for the male model (`model_load.py` line 25). -/
def male_labels : List String :=
  ["non-scalp", "Stage 1", "Stage 2", "Stage 3", "Stage 4", "Stage 5", "Stage 6"]

/-- Class labels for the female model (`model_load.py` line 26). -/
def female_labels : List String :=
  ["non-scalp", "Stage 1", "Stage 2", "Stage 3", "Stage 4", "Stage 5"]

/-- The dictionary returned by `predict_stage`, as a record of optional
fields: each of the source's return statements fills a subset of the keys
`error`, `stage`, `confidence`, `image_url`. -/
structure PredictOut where
  error : Option String
  stage : Option String
  confidence : Option Rat
  image_url : Option String
deriving Repr, DecidableEq

/-- A hard failure of `predict_stage` is a dictionary carrying only an
`error` key — no `stage`/`confidence` to inspect. -/
def PredictOut.isFailure (o : PredictOut) : Bool :=
  o.error.isSome && o.stage.isNone

/-- The spec's `isValid` flag: a classification result is valid iff it
carries no rejection message (`isValid == false` iff predicted index 0,
which is the only branch returning both a `stage` and an `error`). -/
def PredictOut.isValid (o : PredictOut) : Bool :=
  o.error.isNone

/-- `np.argmax` over one row: index of the first maximal element
(ties keep the earlier index, as numpy replaces only on strictly
greater). Auxiliary accumulator: current position, best index, best value. -/
def np_argmax_aux : List Rat → Nat → Nat → Rat → Nat
  | [], _, bi, _ => bi
  | x :: xs, i, bi, bv =>
    if bv < x then np_argmax_aux xs (i + 1) i x
    else np_argmax_aux xs (i + 1) bi bv

/-- `np.argmax(predictions, axis=1)[0]` for the single row of predictions. -/
def np_argmax : List Rat → Nat
  | [] => 0
  | x :: xs => np_argmax_aux xs 1 0 x

/-- `float(np.max(predictions))` for the single row of predictions. -/
def np_max : List Rat → Rat
  | [] => 0
  | x :: xs => xs.foldl max x

/-- The shared body of `predict_stage` after the gender dispatch
(`model_load.py` lines 39-74), for one chosen label list and model.
The indexing `class_labels[predicted_class]` (first reached on the source's
logging line inside the `try`) would raise `IndexError` when out of range,
caught as the generic prediction failure, hence the bounds test; an empty
prediction row would make `np.argmax` raise, likewise caught.
(Apostrophes of the source's message texts are elided.) -/
def predict_with {Img : Type} (class_labels : List String)
    (load : String → Except String Img)
    (predictF : Img → Except String (List Rat))
    (image_url : String) : PredictOut :=
  match load image_url with
  | .error e => ⟨some ("Error loading image from URL: " ++ e), none, none, none⟩
  | .ok img =>
    match predictF img with
    | .error e => ⟨some ("Prediction failed: " ++ e), none, none, none⟩
    | .ok predictions =>
      match predictions with
      | [] => ⟨some "Prediction failed: attempt to get argmax of an empty sequence",
               none, none, none⟩
      | _ :: _ =>
        let predicted_class := np_argmax predictions
        let confidence := np_max predictions
        if predicted_class < class_labels.length then
          if predicted_class = 0 then
            ⟨some "Invalid image! Please upload a scalp image.",
             some (class_labels.getD predicted_class ""),
             some confidence, some image_url⟩
          else
            ⟨none, some (class_labels.getD predicted_class ""),
             some confidence, some image_url⟩
        else
          ⟨some "Prediction failed: list index out of range", none, none, none⟩

/-- `predict_stage` (`model_load.py` lines 28-74).  The gender dispatch
comes first: an unknown gender returns the error dictionary before any
image loading or inference. -/
def predict_stage {Img : Type} (load : String → Except String Img)
    (predictMale predictFemale : Img → Except String (List Rat))
    (image_url gender : String) : PredictOut :=
  if gender = "male" then predict_with male_labels load predictMale image_url
  else if gender = "female" then predict_with female_labels load predictFemale image_url
  else ⟨some "Invalid gender selection. Choose male or female.", none, none, none⟩

/-- The per-image loop of `analyze_hair_density` (lines 84-103): process
URLs in order, stopping at the first failure with its message. -/
def processAll (process : String → Except String Rat) :
    List String → Except String (List Rat)
  | [] => .ok []
  | u :: us =>
    match process u with
    | .error e => .error ("Failed to process image " ++ u ++ ": " ++ e)
    | .ok d =>
      match processAll process us with
      | .error e => .error e
      | .ok ds => .ok (d :: ds)

instance tsLeDecidable {T : Type} [LinearOrder T] :
    DecidableRel (fun p q : Nat × T => p.2 ≤ q.2) :=
  fun p q => inferInstanceAs (Decidable (p.2 ≤ q.2))

/-- The (original index, timestamp) pairs of the input, sorted by
timestamp with a stable insertion sort — the algorithm `np.argsort`
runs on arrays of fewer than 17 elements (`sorted_indices`, line 109). -/
def sortedPairs {T : Type} [LinearOrder T] (l : List T) : List (Nat × T) :=
  List.insertionSort (fun p q : Nat × T => p.2 ≤ q.2) l.enum

/-- `np.argsort(timestamps)` (line 109). -/
def np_argsort {T : Type} [LinearOrder T] (l : List T) : List Nat :=
  (sortedPairs l).map Prod.fst

/-- The three-way status rule, textually identical at lines 121 and 129. -/
def statusOf (pc : Rat) : String :=
  if pc > 0 then "Improved" else if pc < -5 then "Worsened" else "Stable"

/-- Round half to even at integer precision (Python's `round`). -/
def roundHalfEven (x : Rat) : Int :=
  let f : Int := Int.floor x
  let r : Rat := x - (f : Rat)
  if r < 1/2 then f
  else if 1/2 < r then f + 1
  else if f % 2 = 0 then f else f + 1

/-- `round(x, 1)` — one decimal place (line 124). -/
def round1 (x : Rat) : Rat := ((roundHalfEven (10 * x) : Int) : Rat) / 10

/-- One element of the `results` list (lines 122-126). -/
structure TrendPoint where
  week : Nat
  percentageChange : Rat
  status : String
deriving Repr, DecidableEq

/-- One loop iteration of lines 115-126: the status is computed from the
unrounded percentage change, while the stored `percentageChange` is the
rounded value. -/
def trendPoint (baseline_density current_density : Rat) (i : Nat) : TrendPoint :=
  let percentage_change : Rat :=
    if baseline_density = 0 then 0
    else ((current_density - baseline_density) / baseline_density) * 100
  { week := i + 1
    percentageChange := round1 percentage_change
    status := statusOf percentage_change }

/-- Lines 113-129 given the time-sorted density list: baseline, the three
trend points for `i in range(1, 4)`, and the overall status from
`np.mean` of the stored (rounded) `percentageChange` values. -/
def density_trend (sorted_densities : List Rat) : List TrendPoint × String :=
  let baseline_density := sorted_densities.getD 0 0
  let results := (List.range' 1 3).map fun i =>
    trendPoint baseline_density (sorted_densities.getD i 0) i
  let changes := results.map TrendPoint.percentageChange
  (results, statusOf (changes.sum / (changes.length : Rat)))

/-- The dictionary returned by `analyze_hair_density`: either an `error`
key alone, or the `results` list plus overall `status`
(`comparisonImageUrl` is the constant `None` and is omitted). -/
inductive TrackOut where
  | error (msg : String)
  | ok (results : List TrendPoint) (status : String)
deriving Repr, DecidableEq

/-- `analyze_hair_density` (`model_load.py` lines 76-138).  The source also
computes `sorted_urls`, which does not appear in the returned dictionary. -/
def analyze_hair_density {T : Type} [LinearOrder T]
    (process : String → Except String Rat)
    (image_urls : List String) (timestamps : List T) : TrackOut :=
  if image_urls.length ≠ 4 ∨ timestamps.length ≠ 4 then
    .error "Exactly 4 images and timestamps are required"
  else
    match processAll process image_urls with
    | .error msg => .error msg
    | .ok density_scores =>
      if density_scores.length ≠ 4 then .error "Failed to process all images"
      else
        let sorted_densities :=
          (np_argsort timestamps).map fun i => density_scores.getD i 0
        let rs := density_trend sorted_densities
        .ok rs.1 rs.2

/-- `analyze_hair_density` on a list of (image URL, timestamp) samples, the
unit the caller permutes. -/
def track_samples {T : Type} [LinearOrder T]
    (process : String → Except String Rat)
    (samples : List (String × T)) : TrackOut :=
  analyze_hair_density process (samples.map Prod.fst) (samples.map Prod.snd)

/-! ## Helper lemmas -/

/-- The density delivered by a successful `process` call (`0` is never used:
it is read only under an `isOk` hypothesis). -/
def okValue (e : Except String Rat) : Rat :=
  match e with
  | .ok d => d
  | .error _ => 0

theorem processAll_ok_length (process : String → Except String Rat) :
    ∀ (urls : List String) (ds : List Rat),
      processAll process urls = .ok ds → ds.length = urls.length := by
  intro urls
  induction urls with
  | nil => intro ds h; cases h; rfl
  | cons u us ih =>
    intro ds h
    unfold processAll at h
    cases hu : process u with
    | error e => rw [hu] at h; cases h
    | ok d =>
      rw [hu] at h
      cases hrest : processAll process us with
      | error e => rw [hrest] at h; cases h
      | ok ds' =>
        rw [hrest] at h
        cases h
        simp [ih ds' hrest]

theorem processAll_ok_of_all (process : String → Except String Rat) :
    ∀ (urls : List String), (∀ u ∈ urls, (process u).isOk = true) →
      processAll process urls = .ok (urls.map fun u => okValue (process u)) := by
  intro urls
  induction urls with
  | nil => intro _; rfl
  | cons u us ih =>
    intro hall
    have hu : (process u).isOk = true := hall u (List.mem_cons_self u us)
    unfold processAll
    cases he : process u with
    | error e => rw [he] at hu; cases hu
    | ok d =>
      rw [ih fun v hv => hall v (List.mem_cons_of_mem u hv)]
      simp [List.map, okValue, he]

theorem processAll_error_of_exists (process : String → Except String Rat) :
    ∀ (urls : List String), (∃ u ∈ urls, (process u).isOk = false) →
      ∃ u e, u ∈ urls ∧ process u = .error e ∧
        processAll process urls = .error ("Failed to process image " ++ u ++ ": " ++ e) := by
  intro urls
  induction urls with
  | nil => rintro ⟨u, hu, -⟩; cases hu
  | cons v vs ih =>
    rintro ⟨u, hu, hfail⟩
    cases he : process v with
    | error e =>
      refine ⟨v, e, List.mem_cons_self v vs, he, ?_⟩
      unfold processAll
      rw [he]
    | ok d =>
      have hu' : u ∈ vs := by
        rcases List.mem_cons.1 hu with rfl | h
        · rw [he] at hfail; cases hfail
        · exact h
      obtain ⟨w, e, hw, hwe, hrec⟩ := ih ⟨u, hu', hfail⟩
      refine ⟨w, e, List.mem_cons_of_mem v hw, hwe, ?_⟩
      unfold processAll
      rw [he, hrec]

/-! ## C3: the three-way status rule -/

/-- C3: for every percentage-change value, the status rule is `Improved`
iff the value is strictly positive, `Worsened` iff it is strictly below
`-5`, and `Stable` otherwise — in particular exactly `-5` and exactly `0`
are `Stable`; the identical rule is applied to each per-period (unrounded)
change and to the mean of the stored changes. -/
theorem status_three_way_rule (pc : Rat) :
    (statusOf pc = "Improved" ↔ 0 < pc) ∧
    (statusOf pc = "Worsened" ↔ pc < -5) ∧
    (statusOf pc = "Stable" ↔ -5 ≤ pc ∧ pc ≤ 0) ∧
    statusOf (-5) = "Stable" ∧ statusOf 0 = "Stable" ∧
    (∀ b c i, (trendPoint b c i).status =
      statusOf (if b = 0 then 0 else ((c - b) / b) * 100)) ∧
    (∀ sorted_densities,
      (density_trend sorted_densities).2 =
        statusOf ((((density_trend sorted_densities).1.map
          TrendPoint.percentageChange).sum) / 3)) := by
  refine ⟨?_, ?_, ?_, by decide, by decide, fun b c i => rfl, fun ds => ?_⟩
  · unfold statusOf
    split_ifs with hp hw
    · exact iff_of_true rfl hp
    · exact iff_of_false (by decide) (by linarith)
    · exact iff_of_false (by decide) hp
  · unfold statusOf
    split_ifs with hp hw
    · exact iff_of_false (by decide) (by linarith)
    · exact iff_of_true rfl hw
    · exact iff_of_false (by decide) hw
  · unfold statusOf
    split_ifs with hp hw
    · exact iff_of_false (by decide) (by rintro ⟨-, h⟩; linarith)
    · exact iff_of_false (by decide) (by rintro ⟨h, -⟩; linarith)
    · exact iff_of_true rfl ⟨by linarith [not_lt.1 hw], not_lt.1 hp⟩
  · show (density_trend ds).2 = _
    unfold density_trend
    simp [List.range']

/-! ## C8: unknown category fails fast, independent of the image -/

/-- C8: for a gender other than `male`/`female`, `predict_stage` returns
the invalid-gender error dictionary, and the result is the same whatever
the image loader, the models and the URL — no image loading and no
inference contribute to it. -/
theorem invalid_gender_rejected {Img Img' : Type}
    (load : String → Except String Img)
    (predictMale predictFemale : Img → Except String (List Rat))
    (image_url gender : String)
    (h1 : gender ≠ "male") (h2 : gender ≠ "female") :
    predict_stage load predictMale predictFemale image_url gender =
      ⟨some "Invalid gender selection. Choose male or female.", none, none, none⟩ ∧
    ∀ (load' : String → Except String Img')
      (predictMale' predictFemale' : Img' → Except String (List Rat))
      (image_url' : String),
      predict_stage load predictMale predictFemale image_url gender =
        predict_stage load' predictMale' predictFemale' image_url' gender := by
  have h : ∀ {I : Type} (ld : String → Except String I)
      (pm pf : I → Except String (List Rat)) (url : String),
      predict_stage ld pm pf url gender =
        ⟨some "Invalid gender selection. Choose male or female.", none, none, none⟩ := by
    intro I ld pm pf url
    unfold predict_stage
    rw [if_neg h1, if_neg h2]
  exact ⟨h load predictMale predictFemale image_url,
    fun load' pm' pf' url' => (h load predictMale predictFemale image_url).trans
      (h load' pm' pf' url').symm⟩

/-- Witness for C8 at the concrete gender `other`. -/
theorem invalid_gender_rejected_witness :
    predict_stage (fun _ => (Except.ok () : Except String Unit))
      (fun _ => .ok [1]) (fun _ => .ok [1]) "http://img" "other" =
      ⟨some "Invalid gender selection. Choose male or female.", none, none, none⟩ :=
  (@invalid_gender_rejected Unit Unit (fun _ => .ok ())
    (fun _ => .ok [1]) (fun _ => .ok [1]) "http://img" "other"
    (by decide) (by decide)).1

/-! ## Evaluation helpers -/

/-- `roundHalfEven` at a value lying in `[n, n + 1/2)` returns `n`
(covers in particular every integer-valued argument). -/
theorem roundHalfEven_eval_low (x : Rat) (n : Int)
    (h1 : (n : Rat) ≤ x) (h2 : x - (n : Rat) < 1/2) : roundHalfEven x = n := by
  have hf : Int.floor x = n := Int.floor_eq_iff.2 ⟨h1, by linarith⟩
  simp only [roundHalfEven]
  rw [hf, if_pos h2]

/-- A successful run of `analyze_hair_density` reduces to `density_trend`
of the time-sorted densities. -/
theorem analyze_hair_density_ok {T : Type} [LinearOrder T]
    (process : String → Except String Rat)
    (image_urls : List String) (timestamps : List T) (ds : List Rat)
    (hu : image_urls.length = 4) (ht : timestamps.length = 4)
    (hok : processAll process image_urls = .ok ds) :
    analyze_hair_density process image_urls timestamps =
      .ok (density_trend ((np_argsort timestamps).map fun i => ds.getD i 0)).1
          (density_trend ((np_argsort timestamps).map fun i => ds.getD i 0)).2 := by
  have hlen : ds.length = 4 := (processAll_ok_length process image_urls ds hok).trans hu
  unfold analyze_hair_density
  rw [if_neg (by simp [hu, ht]), hok]
  dsimp only
  rw [if_neg (by simp [hlen])]

/-! ## C1: the non-scalp (index 0) soft rejection -/

/-- C1: for either valid gender, when the image loads, inference succeeds
and the arg-max predicted index is 0, `predict_stage` returns the
rejection dictionary — carrying the sentinel label `non-scalp`, the
confidence and the human-readable reason — which is not a hard failure
(`isFailure = false`: the stage/confidence stay inspectable) and is
invalid (`isValid = false`). -/
theorem nonscalp_soft_rejection {Img : Type}
    (load : String → Except String Img)
    (predictMale predictFemale : Img → Except String (List Rat))
    (image_url gender : String) (img : Img) (preds : List Rat)
    (hload : load image_url = .ok img)
    (hgender :
      (gender = "male" ∧ predictMale img = .ok preds) ∨
      (gender = "female" ∧ predictFemale img = .ok preds))
    (hne : preds ≠ [])
    (hargmax : np_argmax preds = 0) :
    predict_stage load predictMale predictFemale image_url gender =
      ⟨some "Invalid image! Please upload a scalp image.", some "non-scalp",
       some (np_max preds), some image_url⟩ ∧
    (predict_stage load predictMale predictFemale image_url gender).isFailure = false ∧
    (predict_stage load predictMale predictFemale image_url gender).isValid = false := by
  have main : ∀ (class_labels : List String)
      (predictF : Img → Except String (List Rat)),
      predictF img = .ok preds → 0 < class_labels.length →
      class_labels.getD 0 "" = "non-scalp" →
      predict_with class_labels load predictF image_url =
        ⟨some "Invalid image! Please upload a scalp image.", some "non-scalp",
         some (np_max preds), some image_url⟩ := by
    intro class_labels predictF hpred hlen hlabel
    unfold predict_with
    rw [hload]
    dsimp only
    rw [hpred]
    dsimp only
    cases preds with
    | nil => exact absurd rfl hne
    | cons p ps =>
      dsimp only
      rw [hargmax, if_pos hlen, if_pos rfl, hlabel]
  have key : predict_stage load predictMale predictFemale image_url gender =
      ⟨some "Invalid image! Please upload a scalp image.", some "non-scalp",
       some (np_max preds), some image_url⟩ := by
    rcases hgender with ⟨rfl, hpred⟩ | ⟨rfl, hpred⟩
    · unfold predict_stage
      rw [if_pos rfl]
      exact main male_labels predictMale hpred (by norm_num [male_labels]) rfl
    · unfold predict_stage
      rw [if_neg (by simp), if_pos rfl]
      exact main female_labels predictFemale hpred (by norm_num [female_labels]) rfl
  rw [key]
  exact ⟨rfl, rfl, rfl⟩

/-- Witness for C1: a male-category call whose two-class prediction row has
its maximum at index 0. -/
theorem nonscalp_soft_rejection_witness :
    predict_stage (fun _ => (Except.ok () : Except String Unit))
      (fun _ => .ok [3/4, 1/4]) (fun _ => .ok []) "http://img" "male" =
      ⟨some "Invalid image! Please upload a scalp image.", some "non-scalp",
       some (3/4), some "http://img"⟩ :=
  ((@nonscalp_soft_rejection Unit (fun _ => .ok ())
      (fun _ => .ok [3/4, 1/4]) (fun _ => .ok []) "http://img" "male" () [3/4, 1/4]
      rfl (.inl ⟨rfl, rfl⟩) (by simp)
      (by norm_num [np_argmax, np_argmax_aux])).1).trans
    (by norm_num [np_max])

/-! ## C4: a zero baseline makes everything Stable with zero change -/

/-- C4: whenever the chronologically first (baseline) density is `0`,
every trend point carries `percentageChange = 0` and status `Stable`, and
the overall status is `Stable`. -/
theorem zero_baseline_all_stable {T : Type} [LinearOrder T]
    (process : String → Except String Rat)
    (image_urls : List String) (timestamps : List T)
    (density_scores : List Rat)
    (hu : image_urls.length = 4) (ht : timestamps.length = 4)
    (hok : processAll process image_urls = .ok density_scores)
    (hbase : ((np_argsort timestamps).map fun i => density_scores.getD i 0).getD 0 0
      = 0) :
    analyze_hair_density process image_urls timestamps =
      .ok [⟨2, 0, "Stable"⟩, ⟨3, 0, "Stable"⟩, ⟨4, 0, "Stable"⟩] "Stable" := by
  rw [analyze_hair_density_ok process image_urls timestamps density_scores hu ht hok]
  have hpt : ∀ c i, trendPoint 0 c i = ⟨i + 1, 0, "Stable"⟩ := by
    intro c i
    unfold trendPoint
    rw [if_pos rfl]
    dsimp only
    rw [show round1 0 = 0 by
      unfold round1
      rw [mul_zero, roundHalfEven_eval_low 0 0 (by norm_num) (by norm_num)]
      norm_num]
    norm_num [statusOf]
  unfold density_trend
  rw [hbase]
  simp only [List.range', List.map, hpt]
  norm_num [statusOf]

/-- Witness for C4: densities `[0, 5, 3, 7]` in chronological order. -/
theorem zero_baseline_all_stable_witness :
    analyze_hair_density (T := Nat)
      (fun u => .ok (if u = "u0" then 0 else if u = "u1" then 5
        else if u = "u2" then 3 else 7))
      ["u0", "u1", "u2", "u3"] [0, 1, 2, 3] =
      .ok [⟨2, 0, "Stable"⟩, ⟨3, 0, "Stable"⟩, ⟨4, 0, "Stable"⟩] "Stable" :=
  zero_baseline_all_stable
    (fun u => .ok (if u = "u0" then 0 else if u = "u1" then 5
      else if u = "u2" then 3 else 7))
    ["u0", "u1", "u2", "u3"] [0, 1, 2, 3] [0, 5, 3, 7]
    (by simp) (by simp) (by simp [processAll])
    (by simp [np_argsort, sortedPairs, List.enum, List.enumFrom,
      List.insertionSort, List.orderedInsert, List.getD])

/-! ## C10: status from the unrounded change, stored change rounded -/

/-- C10: the status is classified from the unrounded percentage change
while the stored `percentageChange` is the rounded value; with a true
change of `1/100` (inside the open interval `(0, 1/20)`) every returned
point carries `percentageChange = 0` together with status `Improved`
(and the overall status, computed from the mean of the stored rounded
changes, is `Stable`). -/
theorem status_from_unrounded_change :
    analyze_hair_density (T := Nat)
      (fun u => .ok (if u = "u0" then 10000 else 10001))
      ["u0", "u1", "u2", "u3"] [0, 1, 2, 3] =
      .ok [⟨2, 0, "Improved"⟩, ⟨3, 0, "Improved"⟩, ⟨4, 0, "Improved"⟩] "Stable" ∧
    (0 : Rat) < (10001 - 10000) / 10000 * 100 ∧
    ((10001 - 10000 : Rat) / 10000) * 100 < 1/20 ∧
    round1 (((10001 - 10000 : Rat) / 10000) * 100) = 0 := by
  have h01 : roundHalfEven (1/10) = 0 :=
    roundHalfEven_eval_low _ _ (by norm_num) (by norm_num)
  refine ⟨?_, by norm_num, by norm_num, ?_⟩
  · rw [analyze_hair_density_ok _ _ _ [10000, 10001, 10001, 10001]
      (by simp) (by simp) (by simp [processAll])]
    rw [show np_argsort ([0, 1, 2, 3] : List Nat) = [0, 1, 2, 3] from by
      simp [np_argsort, sortedPairs, List.enum, List.enumFrom,
        List.insertionSort, List.orderedInsert]]
    norm_num [density_trend, trendPoint, statusOf, List.range', List.getD,
      round1, h01]
  · norm_num [round1, h01]

/-! ## C7: any single decode failure is fatal for the whole batch -/

/-- C7: if any of the four images fails to process, `analyze_hair_density`
returns the image-processing error of the first failing URL, and no
success result is returned. -/
theorem single_failure_is_fatal {T : Type} [LinearOrder T]
    (process : String → Except String Rat)
    (image_urls : List String) (timestamps : List T)
    (hu : image_urls.length = 4) (ht : timestamps.length = 4)
    (hfail : ∃ u ∈ image_urls, (process u).isOk = false) :
    (∃ u e, u ∈ image_urls ∧ process u = .error e ∧
      analyze_hair_density process image_urls timestamps =
        .error ("Failed to process image " ++ u ++ ": " ++ e)) ∧
    ∀ results status,
      analyze_hair_density process image_urls timestamps ≠ .ok results status := by
  obtain ⟨u, e, hmem, hue, hrun⟩ := processAll_error_of_exists process image_urls hfail
  have key : analyze_hair_density process image_urls timestamps =
      .error ("Failed to process image " ++ u ++ ": " ++ e) := by
    unfold analyze_hair_density
    rw [if_neg (by simp [hu, ht]), hrun]
  exact ⟨⟨u, e, hmem, hue, key⟩, fun results status h => by
    rw [key] at h; cases h⟩

/-- Witness for C7: the third image fails to decode. -/
theorem single_failure_is_fatal_witness :
    analyze_hair_density (T := Nat)
      (fun u => if u = "u2" then .error "bad bytes" else .ok 5)
      ["u0", "u1", "u2", "u3"] [0, 1, 2, 3] ≠
      .ok [⟨2, 0, "Stable"⟩, ⟨3, 0, "Stable"⟩, ⟨4, 0, "Stable"⟩] "Stable" :=
  (single_failure_is_fatal
    (fun u => if u = "u2" then .error "bad bytes" else .ok 5)
    ["u0", "u1", "u2", "u3"] [0, 1, 2, 3]
    (by simp) (by simp) ⟨"u2", by simp, by simp [Except.isOk, Except.toBool]⟩).2
    [⟨2, 0, "Stable"⟩, ⟨3, 0, "Stable"⟩, ⟨4, 0, "Stable"⟩] "Stable"

/-! ## C5: the percentage-change formula and the worked example -/

/-- C5: with a nonzero baseline, each trend point stores
`round1 (100 * (current - baseline) / baseline)` and classifies the same
(unrounded) quantity; on densities `[10, 12, 9, 20]` in chronological
order the three points are `+20.0` Improved, `-10.0` Worsened, `+100.0`
Improved, and the mean `110/3` (≈36.67) being positive makes the overall
status Improved. -/
theorem percentage_change_formula :
    (∀ b c : Rat, b ≠ 0 → ∀ i : Nat,
      trendPoint b c i =
        ⟨i + 1, round1 (100 * (c - b) / b), statusOf (100 * (c - b) / b)⟩) ∧
    analyze_hair_density (T := Nat)
      (fun u => .ok (if u = "u0" then 10 else if u = "u1" then 12
        else if u = "u2" then 9 else 20))
      ["u0", "u1", "u2", "u3"] [0, 1, 2, 3] =
      .ok [⟨2, 20, "Improved"⟩, ⟨3, -10, "Worsened"⟩, ⟨4, 100, "Improved"⟩]
        "Improved" ∧
    (0 : Rat) < (20 + -10 + 100) / 3 := by
  refine ⟨?_, ?_, by norm_num⟩
  · intro b c hb i
    unfold trendPoint
    rw [if_neg hb]
    dsimp only
    rw [show (c - b) / b * 100 = 100 * (c - b) / b from by ring]
  · have h200 : roundHalfEven 200 = 200 :=
      roundHalfEven_eval_low _ _ (by norm_num) (by norm_num)
    have hm100 : roundHalfEven (-100) = -100 :=
      roundHalfEven_eval_low _ _ (by norm_num) (by norm_num)
    have h1000 : roundHalfEven 1000 = 1000 :=
      roundHalfEven_eval_low _ _ (by norm_num) (by norm_num)
    rw [analyze_hair_density_ok _ _ _ [10, 12, 9, 20]
      (by simp) (by simp) (by simp [processAll])]
    rw [show np_argsort ([0, 1, 2, 3] : List Nat) = [0, 1, 2, 3] from by
      simp [np_argsort, sortedPairs, List.enum, List.enumFrom,
        List.insertionSort, List.orderedInsert]]
    norm_num [density_trend, trendPoint, statusOf, List.range', List.getD,
      round1, h200, hm100, h1000]

/-- Witness for C5: the formula instantiated at baseline 10, current 12. -/
theorem percentage_change_formula_witness :
    trendPoint 10 12 1 =
      ⟨2, round1 (100 * (12 - 10) / 10), statusOf (100 * (12 - 10) / 10)⟩ :=
  percentage_change_formula.1 10 12 (by norm_num) 1

/-! ## C2: the timestamp sort is ascending and stable -/

/-- `p` must precede `q` in a stable ascending sort of (original index,
timestamp) pairs: strictly earlier timestamp, or equal timestamps with
`p` earlier in the input. -/
def stableBefore {T : Type} [LinearOrder T] (p q : Nat × T) : Prop :=
  p.2 < q.2 ∨ (p.2 = q.2 ∧ p.1 < q.1)

theorem stableBefore.snd_le {T : Type} [LinearOrder T] {p q : Nat × T}
    (h : stableBefore p q) : p.2 ≤ q.2 :=
  h.elim le_of_lt fun h => le_of_eq h.1

/-- Inserting a pair whose original index precedes everything in an
already stably-sorted list keeps the list stably sorted. -/
theorem orderedInsert_stable {T : Type} [LinearOrder T] (a : Nat × T)
    (l : List (Nat × T)) :
    (∀ q ∈ l, a.1 < q.1) →
    List.Sorted stableBefore l →
    List.Sorted stableBefore
      (List.orderedInsert (fun p q : Nat × T => p.2 ≤ q.2) a l) := by
  induction l with
  | nil =>
    intro _ _
    simp [List.orderedInsert]
  | cons b bs ih =>
    intro hidx hs
    simp only [List.orderedInsert]
    split_ifs with hle
    · refine List.sorted_cons.2 ⟨?_, hs⟩
      intro c hc
      have hbc : ∀ c ∈ bs, b.2 ≤ c.2 := fun c hc =>
        (List.rel_of_sorted_cons hs c hc).snd_le
      rcases List.mem_cons.1 hc with rfl | hc
      · rcases lt_or_eq_of_le hle with h | h
        · exact Or.inl h
        · exact Or.inr ⟨h, hidx c (List.mem_cons_self c bs)⟩
      · have hac : a.2 ≤ c.2 := le_trans hle (hbc c hc)
        rcases lt_or_eq_of_le hac with h | h
        · exact Or.inl h
        · exact Or.inr ⟨h, hidx c (List.mem_cons_of_mem b hc)⟩
    · push_neg at hle
      refine List.sorted_cons.2 ⟨?_, ih
        (fun q hq => hidx q (List.mem_cons_of_mem b hq)) (List.sorted_cons.1 hs).2⟩
      intro c hc
      rcases (List.mem_orderedInsert _).1 hc with rfl | hc
      · exact Or.inl hle
      · exact (List.sorted_cons.1 hs).1 c hc

/-- Insertion sort by timestamp of pairs with strictly increasing original
indices is stably sorted. -/
theorem insertionSort_stable {T : Type} [LinearOrder T] (l : List (Nat × T))
    (h : l.Pairwise fun p q => p.1 < q.1) :
    List.Sorted stableBefore
      (List.insertionSort (fun p q : Nat × T => p.2 ≤ q.2) l) := by
  induction l with
  | nil => simp
  | cons a as ih =>
    rw [List.insertionSort]
    have hp := List.pairwise_cons.1 h
    exact orderedInsert_stable a _
      (fun q hq => hp.1 q ((List.mem_insertionSort _).1 hq)) (ih hp.2)

/-- The original indices of `l.enum` increase strictly. -/
theorem enum_pairwise_fst {T : Type} (l : List T) :
    l.enum.Pairwise fun p q : Nat × T => p.1 < q.1 := by
  rw [List.pairwise_iff_getElem]
  intro i j hi hj hij
  rw [List.getElem_enum, List.getElem_enum]
  simpa using hij

/-- The sorted index list is a permutation of the input positions. -/
theorem np_argsort_perm_range {T : Type} [LinearOrder T] (l : List T) :
    (np_argsort l).Perm (List.range l.length) := by
  unfold np_argsort sortedPairs
  have h := (List.perm_insertionSort
    (fun p q : Nat × T => p.2 ≤ q.2) l.enum).map Prod.fst
  rwa [List.enum_map_fst] at h

/-- C2: the (index, timestamp) pairs that `analyze_hair_density` sorts
before choosing the baseline are a permutation of the input pairs, sorted
ascending by timestamp, and stably so: any two pairs with equal timestamps
keep their original input order.  `np_argsort` is exactly the index
sequence of that stable sort. -/
theorem track_sort_stable {T : Type} [LinearOrder T] (timestamps : List T) :
    (sortedPairs timestamps).Perm timestamps.enum ∧
    List.Sorted (fun p q : Nat × T => p.2 ≤ q.2) (sortedPairs timestamps) ∧
    List.Sorted stableBefore (sortedPairs timestamps) ∧
    np_argsort timestamps = (sortedPairs timestamps).map Prod.fst := by
  have hstable := insertionSort_stable timestamps.enum (enum_pairwise_fst timestamps)
  exact ⟨List.perm_insertionSort _ _,
    List.Pairwise.imp (fun h => h.snd_le) hstable, hstable, rfl⟩

/-! ## C6: order-independence for distinct timestamps -/

instance fstLeDecidable {T : Type} [LinearOrder T] :
    DecidableRel (fun p q : T × Rat => p.1 ≤ q.1) :=
  fun p q => inferInstanceAs (Decidable (p.1 ≤ q.1))

/-- Indexing a density list through `enum` realizes `zip`. -/
theorem enum_map_eq_zip {T : Type} (ts : List T) (ds : List Rat)
    (h : ts.length ≤ ds.length) :
    ts.enum.map (fun p => (p.2, ds.getD p.1 0)) = ts.zip ds := by
  apply List.ext_getElem
  · simp [List.enum_length, List.length_zip, min_eq_left h]
  · intro i h1 h2
    have hts : i < ts.length := by simpa [List.enum_length] using h1
    have hds : i < ds.length := lt_of_lt_of_le hts h
    simp only [List.getElem_map, List.getElem_enum, List.getElem_zip]
    rw [List.getD_eq_getElem ds 0 hds]

/-- The time-sorted density list equals the second components of the
(timestamp, density) pairs sorted by timestamp. -/
theorem sorted_densities_eq {T : Type} [LinearOrder T] (ts : List T)
    (ds : List Rat) (h : ts.length ≤ ds.length) :
    (np_argsort ts).map (fun i => ds.getD i 0) =
      (List.insertionSort (fun p q : T × Rat => p.1 ≤ q.1) (ts.zip ds)).map
        Prod.snd := by
  unfold np_argsort sortedPairs
  rw [List.map_map]
  have hcomm := List.map_insertionSort (fun p q : Nat × T => p.2 ≤ q.2)
    (fun p q : T × Rat => p.1 ≤ q.1) (fun p : Nat × T => (p.2, ds.getD p.1 0))
    ts.enum (fun a _ b _ => Iff.rfl)
  rw [← enum_map_eq_zip ts ds h, ← hcomm, List.map_map]
  rfl

/-- With pairwise-distinct first components, the by-first-component
insertion sort is strictly sorted. -/
theorem insertionSort_fst_strict {T : Type} [LinearOrder T]
    (z : List (T × Rat)) (hnodup : (z.map Prod.fst).Nodup) :
    List.Sorted (fun p q : T × Rat => p.1 < q.1)
      (List.insertionSort (fun p q : T × Rat => p.1 ≤ q.1) z) := by
  haveI : IsTotal (T × Rat) fun p q : T × Rat => p.1 ≤ q.1 :=
    ⟨fun a b => le_total a.1 b.1⟩
  haveI : IsTrans (T × Rat) fun p q : T × Rat => p.1 ≤ q.1 :=
    ⟨fun _ _ _ => le_trans⟩
  have hsorted := List.sorted_insertionSort (fun p q : T × Rat => p.1 ≤ q.1) z
  have h0 : z.Pairwise fun p q : T × Rat => p.1 ≠ q.1 := List.pairwise_map.1 hnodup
  have hne : (List.insertionSort (fun p q : T × Rat => p.1 ≤ q.1) z).Pairwise
      fun p q : T × Rat => p.1 ≠ q.1 :=
    ((List.perm_insertionSort _ z).pairwise_iff fun h => h.symm).2 h0
  exact (List.Pairwise.and hsorted hne).imp fun h => lt_of_le_of_ne h.1 h.2

/-- Two permuted pair lists with the same distinct first components sort
identically. -/
theorem insertionSort_fst_unique {T : Type} [LinearOrder T]
    (z z' : List (T × Rat)) (hperm : z.Perm z')
    (hnodup : (z.map Prod.fst).Nodup) :
    List.insertionSort (fun p q : T × Rat => p.1 ≤ q.1) z =
      List.insertionSort (fun p q : T × Rat => p.1 ≤ q.1) z' := by
  haveI : IsAntisymm (T × Rat) fun p q : T × Rat => p.1 < q.1 :=
    ⟨fun a b h h' => absurd h' (lt_asymm h)⟩
  have hnodup' : (z'.map Prod.fst).Nodup := ((hperm.map Prod.fst).nodup_iff).1 hnodup
  exact List.eq_of_perm_of_sorted
    ((List.perm_insertionSort _ z).trans
      (hperm.trans (List.perm_insertionSort _ z').symm))
    (insertionSort_fst_strict z hnodup) (insertionSort_fst_strict z' hnodup')

/-- C6: for four samples with pairwise-distinct timestamps that all
process successfully, `track` returns the identical result on any
permutation of the samples. -/
theorem track_order_independent {T : Type} [LinearOrder T]
    (process : String → Except String Rat)
    (samples samples' : List (String × T))
    (hlen : samples.length = 4)
    (hperm : samples.Perm samples')
    (hnodup : (samples.map Prod.snd).Nodup)
    (hall : ∀ s ∈ samples, (process s.1).isOk = true) :
    track_samples process samples = track_samples process samples' := by
  have hall' : ∀ s ∈ samples', (process s.1).isOk = true := fun s hs =>
    hall s (hperm.mem_iff.2 hs)
  have hlen' : samples'.length = 4 := hperm.length_eq ▸ hlen
  have hurls : ∀ (sl : List (String × T)),
      (∀ s ∈ sl, (process s.1).isOk = true) →
      processAll process (sl.map Prod.fst) =
        .ok ((sl.map Prod.fst).map fun u => okValue (process u)) := fun sl hs =>
    processAll_ok_of_all process (sl.map Prod.fst) fun u hu => by
      obtain ⟨s, hsmem, rfl⟩ := List.mem_map.1 hu
      exact hs s hsmem
  unfold track_samples
  rw [analyze_hair_density_ok process _ _ _ (by simp [hlen]) (by simp [hlen])
    (hurls samples hall)]
  rw [analyze_hair_density_ok process _ _ _ (by simp [hlen']) (by simp [hlen'])
    (hurls samples' hall')]
  have hz : ∀ (sl : List (String × T)),
      (sl.map Prod.snd).zip ((sl.map Prod.fst).map fun u => okValue (process u)) =
        sl.map fun s => (s.2, okValue (process s.1)) := by
    intro sl
    rw [List.map_map, List.zip_map']
    rfl
  have key : (np_argsort (samples.map Prod.snd)).map
      (fun i => ((samples.map Prod.fst).map fun u => okValue (process u)).getD i 0) =
      (np_argsort (samples'.map Prod.snd)).map
      (fun i => ((samples'.map Prod.fst).map fun u => okValue (process u)).getD i 0) := by
    rw [sorted_densities_eq _ _ (by simp), sorted_densities_eq _ _ (by simp),
      hz samples, hz samples']
    congr 1
    apply insertionSort_fst_unique
    · exact hperm.map _
    · rw [List.map_map]
      exact hnodup
  rw [key]

/-- Witness for C6: densities `[10, 12, 9, 20]` fed in reversed order. -/
theorem track_order_independent_witness :
    track_samples (T := Nat)
      (fun u => .ok (if u = "a" then 10 else if u = "b" then 12
        else if u = "c" then 9 else 20))
      [("a", 3), ("b", 1), ("c", 2), ("d", 0)] =
    track_samples (T := Nat)
      (fun u => .ok (if u = "a" then 10 else if u = "b" then 12
        else if u = "c" then 9 else 20))
      [("d", 0), ("c", 2), ("b", 1), ("a", 3)] :=
  track_order_independent _
    [("a", 3), ("b", 1), ("c", 2), ("d", 0)]
    [("d", 0), ("c", 2), ("b", 1), ("a", 3)]
    (by simp)
    (by simpa using
      (List.reverse_perm [("a", 3), ("b", 1), ("c", 2), ("d", 0)]).symm)
    (by simp)
    (fun _ _ => rfl)

/-! ## C9: timestamps are never parsed or validated -/

/-- C9 (amended): `analyze_hair_density` performs no timestamp parsing or
validation whatsoever — for any timestamps of any linearly ordered type
(in the application, arbitrary strings compared lexicographically), a call
with four processable images returns a success result, never a
timestamp-related failure. -/
theorem track_no_timestamp_validation {T : Type} [LinearOrder T]
    (process : String → Except String Rat)
    (image_urls : List String) (timestamps : List T)
    (hu : image_urls.length = 4) (ht : timestamps.length = 4)
    (hall : ∀ u ∈ image_urls, (process u).isOk = true) :
    ∃ results status,
      analyze_hair_density process image_urls timestamps = .ok results status :=
  ⟨_, _, analyze_hair_density_ok process image_urls timestamps _ hu ht
    (processAll_ok_of_all process image_urls hall)⟩

/-- Witness for C9's amended claim: four garbage timestamp strings. -/
theorem track_no_timestamp_validation_witness :
    ∃ results status,
      analyze_hair_density (T := String) (fun _ => .ok 5)
        ["a", "b", "c", "d"] ["not-a-timestamp", "also-bad", "??", "13 oclock"] =
        .ok results status :=
  track_no_timestamp_validation (fun _ => .ok 5)
    ["a", "b", "c", "d"] ["not-a-timestamp", "also-bad", "??", "13 oclock"]
    (by simp) (by simp) (fun _ _ => rfl)

/-- Counterexample to C9 as stated: a call whose timestamp strings cannot
be parsed as instants does not fail at all — it returns a full success
result (so in particular no `InvalidTimestamp` failure exists). -/
theorem unparseable_timestamps_no_failure :
    analyze_hair_density (T := String) (fun _ => .ok 5)
      ["a", "b", "c", "d"] ["not-a-timestamp", "also-bad", "??", "13 oclock"] =
      .ok [⟨2, 0, "Stable"⟩, ⟨3, 0, "Stable"⟩, ⟨4, 0, "Stable"⟩] "Stable" := by
  rw [analyze_hair_density_ok _ _ _ [5, 5, 5, 5] (by simp) (by simp)
    (by simp [processAll])]
  have hperm : (np_argsort
      (["not-a-timestamp", "also-bad", "??", "13 oclock"] : List String)).Perm
      (List.range 4) :=
    np_argsort_perm_range _
  have hconst : ((np_argsort
      (["not-a-timestamp", "also-bad", "??", "13 oclock"] : List String)).map
      fun i => ([5, 5, 5, 5] : List Rat).getD i 0) = [5, 5, 5, 5] := by
    have hmem : ∀ i ∈ np_argsort
        (["not-a-timestamp", "also-bad", "??", "13 oclock"] : List String),
        ([5, 5, 5, 5] : List Rat).getD i 0 = (fun _ : Nat => (5 : Rat)) i := by
      intro i hi
      have h4 : i < 4 := by simpa using hperm.mem_iff.1 hi
      interval_cases i <;> rfl
    rw [List.map_congr_left hmem, List.map_const', hperm.length_eq]
    rfl
  rw [hconst]
  norm_num [density_trend, trendPoint, statusOf, List.range', List.getD,
    round1, show roundHalfEven 0 = 0 from
      roundHalfEven_eval_low _ _ (by norm_num) (by norm_num)]
